import Mathlib

/-!
Verification development for `src/cookie_cutter.c`, an SDL2 crop-region
editor.  The crop region, its keyboard and pointer mutation handlers, the
save path (filename counter and pixel extraction) and the preview-cache
policy of the main loop are embedded as executable Lean functions.

Conventions of the embedding:
* C `int` values are modelled as `Int`; no arithmetic in the modelled code
  can overflow 32 bits on the inputs considered.
* C integer division truncates toward zero; it is modelled by `Int.tdiv`
  (Lean's `/` on `Int` is floor division, which differs on negatives).
* Pointer coordinates are taken already mapped to image space, as the
  integer image point; the float expression `(int)(v + 0.5f)` applied to
  an integer-valued `v` is modelled by `trunc_half`.
* The source image is a function `Int → Int → Int` from pixel coordinates
  to color values; `SDL_BlitSurface` from a fresh zero-filled RGBA surface
  is modelled by `extractRect` (source pixels inside bounds, 0 outside).
* Texture allocation is made observable by a generation counter `nid`:
  every `SDL_CreateTextureFromSurface` in the preview path consumes one
  fresh id, so "no reallocation" is "the counter did not advance".
-/

/-- Value of the `DEFAULT_SQUARE_SIZE` macro in the source. -/
def DEFAULT_SQUARE_SIZE : Int := 256

/-- Value of the `MIN_SQUARE_SIZE` macro in the source. -/
def MIN_SQUARE_SIZE : Int := 32

/-- The `CropRegion` struct of the source: top-left corner and size in
image coordinates. -/
structure CropRegion where
  x : Int
  y : Int
  w : Int
  h : Int
deriving DecidableEq, Repr

/-- C integer division (truncation toward zero), as used at
`(orig_w - DEFAULT_SQUARE_SIZE) / 2` in the source. -/
def cdiv (a b : Int) : Int := Int.tdiv a b

/-- The initial crop region built in `main` (source lines 101-110):
centered default square, then clamped member by member in source order. -/
def initialCrop (W H : Int) : CropRegion :=
  let x1 := cdiv (W - DEFAULT_SQUARE_SIZE) 2
  let y1 := cdiv (H - DEFAULT_SQUARE_SIZE) 2
  let x2 := if x1 < 0 then 0 else x1
  let y2 := if y1 < 0 then 0 else y1
  let w2 := if x2 + DEFAULT_SQUARE_SIZE > W then W - x2 else DEFAULT_SQUARE_SIZE
  let h2 := if y2 + DEFAULT_SQUARE_SIZE > H then H - y2 else DEFAULT_SQUARE_SIZE
  ⟨x2, y2, w2, h2⟩

/-- `SDLK_LEFT` handler (source lines 156-174).  Returns the new region and
whether `crop_changed` was set.  `shift` shrinks the width by one (the
recentering lines are commented out in the source), `ctrl` jumps left by
the current width, otherwise the region moves left one pixel. -/
def keyLeft (shift ctrl : Bool) (c : CropRegion) : CropRegion × Bool :=
  if shift then
    if MIN_SQUARE_SIZE < c.w then ({ c with w := c.w - 1 }, true) else (c, false)
  else if ctrl then
    if c.w ≤ c.x then ({ c with x := c.x - c.w }, true) else (c, false)
  else
    if 0 < c.x then ({ c with x := c.x - 1 }, true) else (c, false)

/-- `SDLK_RIGHT` handler (source lines 176-194).  `shift` grows the width
by one when `crop.w < orig_w && crop.x + crop.w < orig_w`, `ctrl` jumps
right by the current width when `crop.x + crop.w + crop.w <= orig_w`,
otherwise the region moves right one pixel when it fits. -/
def keyRight (shift ctrl : Bool) (W : Int) (c : CropRegion) : CropRegion × Bool :=
  if shift then
    if c.w < W ∧ c.x + c.w < W then ({ c with w := c.w + 1 }, true) else (c, false)
  else if ctrl then
    if c.x + c.w + c.w ≤ W then ({ c with x := c.x + c.w }, true) else (c, false)
  else
    if c.x + c.w < W then ({ c with x := c.x + 1 }, true) else (c, false)

/-- `SDLK_UP` handler (source lines 196-214): same shape as `keyLeft`, on
`y`/`h`. -/
def keyUp (shift ctrl : Bool) (c : CropRegion) : CropRegion × Bool :=
  if shift then
    if MIN_SQUARE_SIZE < c.h then ({ c with h := c.h - 1 }, true) else (c, false)
  else if ctrl then
    if c.h ≤ c.y then ({ c with y := c.y - c.h }, true) else (c, false)
  else
    if 0 < c.y then ({ c with y := c.y - 1 }, true) else (c, false)

/-- `SDLK_DOWN` handler (source lines 216-234): same shape as `keyRight`,
on `y`/`h` against the image height. -/
def keyDown (shift ctrl : Bool) (H : Int) (c : CropRegion) : CropRegion × Bool :=
  if shift then
    if c.h < H ∧ c.y + c.h < H then ({ c with h := c.h + 1 }, true) else (c, false)
  else if ctrl then
    if c.y + c.h + c.h ≤ H then ({ c with y := c.y + c.h }, true) else (c, false)
  else
    if c.y + c.h < H then ({ c with y := c.y + 1 }, true) else (c, false)

/-- `SDLK_PLUS`/`SDLK_EQUALS`/`SDLK_KP_PLUS` handler (source lines
236-248): grow both dimensions by 16 when both are below 2048.  The
recentering assignments of `crop.x`/`crop.y` are commented out in the
source, and no bounds clamping is performed. -/
def growKey (c : CropRegion) : CropRegion × Bool :=
  if c.w < 2048 ∧ c.h < 2048 then
    ({ c with w := c.w + 16, h := c.h + 16 }, true)
  else (c, false)

/-- `SDLK_MINUS`/`SDLK_KP_MINUS` handler (source lines 250-261): shrink
both dimensions by 16 when both strictly exceed `MIN_SQUARE_SIZE`.  The
recentering assignments are commented out in the source. -/
def shrinkKey (c : CropRegion) : CropRegion × Bool :=
  if MIN_SQUARE_SIZE < c.w ∧ MIN_SQUARE_SIZE < c.h then
    ({ c with w := c.w - 16, h := c.h - 16 }, true)
  else (c, false)

/-- The mouse-gesture state of the main loop: the `dragging` and
`resizing` booleans and the shared `drag_offset_x`/`drag_offset_y`
integers (source lines 115-117). -/
structure Drag where
  dragging : Bool
  resizing : Bool
  offx : Int
  offy : Int
deriving DecidableEq, Repr

/-- Model of the C cast `(int)(v + 0.5f)` for an integer-valued float
`v`: truncation toward zero of `v + 1/2` adds one to negative integers
and is the identity on nonnegative ones. -/
def trunc_half (v : Int) : Int := if v < 0 then v + 1 else v

/-- `SDL_MOUSEBUTTONDOWN` handler for the left button (source lines
266-299), with the click already mapped to image point `(ix, iy)`.  If the
point is inside the region (boundary inclusive) and both componentwise
distances to the bottom-right corner are below 24, `resizing` is set and
the offset records bottom-right minus click; otherwise if inside,
`dragging` is set and the offset records click minus top-left; a click
outside the region changes nothing. -/
def mouseDown (ix iy : Int) (c : CropRegion) (st : Drag) : Drag :=
  if c.x ≤ ix ∧ ix ≤ c.x + c.w ∧ c.y ≤ iy ∧ iy ≤ c.y + c.h then
    if (ix - (c.x + c.w)).natAbs < 24 ∧ (iy - (c.y + c.h)).natAbs < 24 then
      { st with resizing := true, offx := c.x + c.w - ix, offy := c.y + c.h - iy }
    else
      { st with dragging := true, offx := ix - c.x, offy := iy - c.y }
  else st

/-- `SDL_MOUSEBUTTONUP` handler for the left button (source lines
302-305): both gesture flags are cleared. -/
def mouseUp (st : Drag) : Drag :=
  { st with dragging := false, resizing := false }

/-- `SDL_MOUSEMOTION` handler (source lines 307-351), with the motion
already mapped to image point `(ix, iy)`.  While dragging, the new
top-left is the motion point minus the anchor offset, clamped in source
order; while resizing, the new bottom-right is the motion point plus the
anchor offset, the candidate sizes are clamped below by `MIN_SQUARE_SIZE`
and above by the image extent from the fixed top-left, and the region is
forced square by taking the minimum.  Returns the new region and whether
`crop_changed` was set. -/
def mouseMotion (W H ix iy : Int) (c : CropRegion) (st : Drag) : CropRegion × Bool :=
  if st.dragging || st.resizing then
    if st.dragging then
      let x1 := trunc_half (ix - st.offx)
      let y1 := trunc_half (iy - st.offy)
      let x2 := if x1 < 0 then 0 else x1
      let y2 := if y1 < 0 then 0 else y1
      let x3 := if x2 + c.w > W then W - c.w else x2
      let y3 := if y2 + c.h > H then H - c.h else y2
      ({ c with x := x3, y := y3 }, true)
    else
      let brx := trunc_half (ix + st.offx)
      let bry := trunc_half (iy + st.offy)
      let nw1 := max (brx - c.x) MIN_SQUARE_SIZE
      let nh1 := max (bry - c.y) MIN_SQUARE_SIZE
      let nw2 := min nw1 (W - c.x)
      let nh2 := min nh1 (H - c.y)
      let m := min nw2 nh2
      ({ c with w := m, h := m }, true)
  else (c, false)

/-- Zero-padding of the save counter to three digits, as `%03d` formats
it in `snprintf` (source line 148). -/
def pad3 (n : Nat) : String :=
  if n < 10 then "00" ++ toString n
  else if n < 100 then "0" ++ toString n
  else toString n

/-- The file name `crop_%03d_%dx%d.png` built at source line 148 from the
save counter and the region's dimensions. -/
def saveFileName (cnt : Nat) (c : CropRegion) : String :=
  "crop_" ++ pad3 cnt ++ "_" ++ toString c.w ++ "x" ++ toString c.h ++ ".png"

/-- Pixel extraction of the region's rectangle out of the source image, as
`SDL_BlitSurface` fills a fresh zero-initialized `w×h` RGBA surface
(source lines 39-44 and 362-366): entry `(i, j)` of the result is source
pixel `(x+i, y+j)` when that lies inside the source image, else 0. -/
def extractRect (W H : Int) (src : Int → Int → Int) (c : CropRegion) : Int → Int → Int :=
  fun i j =>
    if 0 ≤ c.x + i ∧ c.x + i < W ∧ 0 ≤ c.y + j ∧ c.y + j < H then
      src (c.x + i) (c.y + j)
    else 0

/-- The `save_crop` function (source lines 33-53): returns no buffer when
the region is degenerate (`w <= 0 || h <= 0`), otherwise the extracted
`w×h` pixel rectangle that is encoded to the named PNG file. -/
def save_crop (W H : Int) (src : Int → Int → Int) (c : CropRegion) :
    Option (Int → Int → Int) :=
  if c.w ≤ 0 ∨ c.h ≤ 0 then none else some (extractRect W H src c)

/-- The `SDLK_s` handler (source lines 144-151): the static counter `cnt`
is read for the file name and post-incremented on every press, then
`save_crop` runs.  Returns the new counter, the file name used and the
saved buffer (none when degenerate). -/
def saveKey (W H : Int) (src : Int → Int → Int) (c : CropRegion) (cnt : Nat) :
    Nat × String × Option (Int → Int → Int) :=
  (cnt + 1, saveFileName cnt c, save_crop W H src c)

/-- The input events the main loop dispatches on that can touch the crop
region or the interaction state: the four arrow keys with their modifier
flags, grow/shrink by 16, save, and the left-button pointer events with
coordinates already mapped to image space. -/
inductive Ev where
  | keyL (shift ctrl : Bool)
  | keyR (shift ctrl : Bool)
  | keyU (shift ctrl : Bool)
  | keyD (shift ctrl : Bool)
  | grow
  | shrink
  | save
  | down (ix iy : Int)
  | up
  | motion (ix iy : Int)
deriving DecidableEq, Repr

/-- The mutable state of the main loop relevant to the claims: the crop
region, the gesture state, the save counter and the per-frame
`crop_changed` flag. -/
structure AppState where
  crop : CropRegion
  st : Drag
  cnt : Nat
  changed : Bool
deriving DecidableEq, Repr

/-- Dispatch of one event on the loop state, following the `switch` in
`main`.  The `crop_changed` flag accumulates over a frame. -/
def applyEvent (W H : Int) (e : Ev) (s : AppState) : AppState :=
  match e with
  | Ev.keyL shift ctrl =>
      let p := keyLeft shift ctrl s.crop
      { s with crop := p.1, changed := s.changed || p.2 }
  | Ev.keyR shift ctrl =>
      let p := keyRight shift ctrl W s.crop
      { s with crop := p.1, changed := s.changed || p.2 }
  | Ev.keyU shift ctrl =>
      let p := keyUp shift ctrl s.crop
      { s with crop := p.1, changed := s.changed || p.2 }
  | Ev.keyD shift ctrl =>
      let p := keyDown shift ctrl H s.crop
      { s with crop := p.1, changed := s.changed || p.2 }
  | Ev.grow =>
      let p := growKey s.crop
      { s with crop := p.1, changed := s.changed || p.2 }
  | Ev.shrink =>
      let p := shrinkKey s.crop
      { s with crop := p.1, changed := s.changed || p.2 }
  | Ev.save => { s with cnt := s.cnt + 1 }
  | Ev.down ix iy => { s with st := mouseDown ix iy s.crop s.st }
  | Ev.up => { s with st := mouseUp s.st }
  | Ev.motion ix iy =>
      let p := mouseMotion W H ix iy s.crop s.st
      { s with crop := p.1, changed := s.changed || p.2 }

/-- A drained event queue applied in order, as the inner
`SDL_PollEvent` loop does. -/
def applyEvents (W H : Int) (es : List Ev) (s : AppState) : AppState :=
  es.foldl (fun s e => applyEvent W H e s) s

/-- The loop state right after startup: initial crop region, no gesture in
progress, save counter at 1, no pending change. -/
def initState (W H : Int) : AppState :=
  ⟨initialCrop W H, ⟨false, false, 0, 0⟩, 1, false⟩

/-- One cached preview: the region it was produced from, the generation id
of its texture allocation, and its pixels. -/
structure PrevEntry where
  reg : CropRegion
  id : Nat
  px : Int → Int → Int

/-- The preview-update step of the main loop (source lines 356-371): when
`crop_changed` is set or no texture is held, the old texture is destroyed
and, for a nondegenerate region, a new one is created from the region's
pixels (consuming a fresh generation id); otherwise the held texture is
kept as is. -/
def previewUpdate (W H : Int) (src : Int → Int → Int) (changed : Bool)
    (c : CropRegion) (cache : Option PrevEntry) (nid : Nat) :
    Option PrevEntry × Nat :=
  if changed || cache.isNone then
    if 0 < c.w ∧ 0 < c.h then (some ⟨c, nid, extractRect W H src c⟩, nid + 1)
    else (none, nid)
  else (cache, nid)

/-- One iteration of the outer `while (running)` loop, restricted to the
model: reset `crop_changed`, drain the event queue, then run the
preview-update step. -/
def frameStep (W H : Int) (src : Int → Int → Int) (s : AppState) (es : List Ev)
    (cache : Option PrevEntry) (nid : Nat) :
    AppState × Option PrevEntry × Nat :=
  let s1 := applyEvents W H es { s with changed := false }
  let p := previewUpdate W H src s1.changed s1.crop cache nid
  (s1, p.1, p.2)

/-- The bounds invariant of the spec: the region lies inside the
`W × H` image. -/
def Inb (W H : Int) (c : CropRegion) : Prop :=
  0 ≤ c.x ∧ 0 ≤ c.y ∧ c.x + c.w ≤ W ∧ c.y + c.h ≤ H

instance (W H : Int) (c : CropRegion) : Decidable (Inb W H c) :=
  inferInstanceAs (Decidable (_ ∧ _ ∧ _ ∧ _))

/-- The bounds invariant together with nonnegative size, which every
mutation handler except the grow key preserves. -/
def GoodRegion (W H : Int) (c : CropRegion) : Prop :=
  Inb W H c ∧ 0 ≤ c.w ∧ 0 ≤ c.h

instance (W H : Int) (c : CropRegion) : Decidable (GoodRegion W H c) :=
  inferInstanceAs (Decidable (_ ∧ _ ∧ _))

/-- An event is a Shift+Arrow single-pixel resize. -/
def shiftArrow : Ev → Prop
  | Ev.keyL shift _ => shift = true
  | Ev.keyR shift _ => shift = true
  | Ev.keyU shift _ => shift = true
  | Ev.keyD shift _ => shift = true
  | _ => False

instance (e : Ev) : Decidable (shiftArrow e) := by
  cases e <;> simp only [shiftArrow] <;> infer_instance

/-- Helper: C division of a nonnegative integer by two stays between zero
and the dividend. -/
theorem cdiv_two_bounds {a : Int} (h : 0 ≤ a) : 0 ≤ cdiv a 2 ∧ cdiv a 2 ≤ a := by
  unfold cdiv
  rw [Int.tdiv_eq_ediv h (by norm_num)]
  omega

/-- Helper: the motion handler preserves the bounds invariant together
with nonnegative size, in both the dragging and the resizing branch. -/
theorem goodRegion_mouseMotion (W H ix iy : Int) (c : CropRegion) (st : Drag)
    (h : GoodRegion W H c) : GoodRegion W H (mouseMotion W H ix iy c st).1 := by
  obtain ⟨cx, cy, cw, ch⟩ := c
  simp only [GoodRegion, Inb] at h ⊢
  simp only [mouseMotion, trunc_half, MIN_SQUARE_SIZE]
  split_ifs <;> simp <;> omega

/-- Helper: every event handler except the grow key preserves the bounds
invariant together with nonnegative size. -/
theorem goodRegion_step (W H : Int) (e : Ev) (s : AppState)
    (hg : e ≠ Ev.grow) (h : GoodRegion W H s.crop) :
    GoodRegion W H (applyEvent W H e s).crop := by
  obtain ⟨⟨hx, hy, hxw, hyh⟩, hw, hh⟩ := h
  cases e with
  | grow => exact absurd rfl hg
  | keyL shift ctrl =>
      simp only [applyEvent, keyLeft, MIN_SQUARE_SIZE, GoodRegion, Inb]
      split_ifs <;> simp <;> omega
  | keyR shift ctrl =>
      simp only [applyEvent, keyRight, GoodRegion, Inb]
      split_ifs <;> simp <;> omega
  | keyU shift ctrl =>
      simp only [applyEvent, keyUp, MIN_SQUARE_SIZE, GoodRegion, Inb]
      split_ifs <;> simp <;> omega
  | keyD shift ctrl =>
      simp only [applyEvent, keyDown, GoodRegion, Inb]
      split_ifs <;> simp <;> omega
  | shrink =>
      simp only [applyEvent, shrinkKey, MIN_SQUARE_SIZE, GoodRegion, Inb]
      split_ifs <;> simp <;> omega
  | save => exact ⟨⟨hx, hy, hxw, hyh⟩, hw, hh⟩
  | down ix iy => exact ⟨⟨hx, hy, hxw, hyh⟩, hw, hh⟩
  | up => exact ⟨⟨hx, hy, hxw, hyh⟩, hw, hh⟩
  | motion ix iy =>
      exact goodRegion_mouseMotion W H ix iy s.crop s.st ⟨⟨hx, hy, hxw, hyh⟩, hw, hh⟩

/-- C1 counterexample: in a 260×260 image the initial region is
`(2,2,256,256)`; one press of the grow key yields `(2,2,272,272)`, whose
right edge `2 + 272 = 274` exceeds the image width, so the bounds
invariant does not hold after every mutation. -/
theorem bounds_not_invariant_cex :
    (applyEvents 260 260 [Ev.grow] (initState 260 260)).crop = ⟨2, 2, 272, 272⟩ ∧
    ¬ Inb 260 260 (applyEvents 260 260 [Ev.grow] (initState 260 260)).crop ∧
    Inb 260 260 (initState 260 260).crop := by decide

/-- C1 amended: every sequence of mutations that never uses the grow-by-16
key preserves the bounds invariant `0 ≤ x`, `0 ≤ y`, `x + w ≤ width`,
`y + h ≤ height` (together with nonnegative size); the grow key performs
no bounds clamping and can push the region outside the image. -/
theorem bounds_invariant_except_grow (W H : Int) (es : List Ev) (s : AppState)
    (hg : Ev.grow ∉ es) (h : GoodRegion W H s.crop) :
    GoodRegion W H (applyEvents W H es s).crop := by
  induction es generalizing s with
  | nil => exact h
  | cons e es ih =>
      have he : e ≠ Ev.grow := fun hh => hg (hh ▸ List.mem_cons_self e es)
      have hes : Ev.grow ∉ es := fun hh => hg (List.mem_cons_of_mem e hh)
      exact ih (applyEvent W H e s) hes (goodRegion_step W H e s he h)

/-- C1 witness: a jump right followed by a shrink keeps the initial region
of an 800×600 image inside the image. -/
theorem bounds_invariant_except_grow_witness :
    GoodRegion 800 600
      (applyEvents 800 600 [Ev.keyR false true, Ev.shrink] (initState 800 600)).crop :=
  bounds_invariant_except_grow 800 600 [Ev.keyR false true, Ev.shrink]
    (initState 800 600) (by decide) (by decide)

/-- Helper: the motion handler preserves squareness: the dragging branch
keeps the size, and the resizing branch forces `w = h` outright. -/
theorem square_mouseMotion (W H ix iy : Int) (c : CropRegion) (st : Drag)
    (h : c.w = c.h) :
    (mouseMotion W H ix iy c st).1.w = (mouseMotion W H ix iy c st).1.h := by
  obtain ⟨cx, cy, cw, ch⟩ := c
  simp only [mouseMotion, trunc_half, MIN_SQUARE_SIZE]
  split_ifs <;> simp_all

/-- C2 counterexample: from the initial region of an 800×600 image, one
Shift+Right press grows only the width, giving `w = 257 ≠ 256 = h`; and at
startup a 100×600 image yields the non-square initial region
`(0,172,100,256)`. -/
theorem square_not_invariant_cex :
    (applyEvents 800 600 [Ev.keyR true false] (initState 800 600)).crop.w = 257 ∧
    (applyEvents 800 600 [Ev.keyR true false] (initState 800 600)).crop.h = 256 ∧
    (initState 800 600).crop.w = (initState 800 600).crop.h ∧
    (initialCrop 100 600).w ≠ (initialCrop 100 600).h := by decide

/-- C2 amended: the initial region is square whenever both image
dimensions are at least the default size 256, and every mutation other
than a Shift+Arrow single-pixel resize preserves `w = h`; the Shift+Arrow
resizes change one dimension alone, and the startup clamp can produce a
non-square region when an image dimension is below 256. -/
theorem square_preserved_except_shift_resize :
    (∀ W H : Int, 256 ≤ W → 256 ≤ H →
      (initialCrop W H).w = (initialCrop W H).h) ∧
    (∀ (W H : Int) (e : Ev) (s : AppState), ¬ shiftArrow e →
      s.crop.w = s.crop.h →
      (applyEvent W H e s).crop.w = (applyEvent W H e s).crop.h) := by
  constructor
  · intro W H hW hH
    have h1 := cdiv_two_bounds (a := W - DEFAULT_SQUARE_SIZE)
      (by unfold DEFAULT_SQUARE_SIZE; omega)
    have h2 := cdiv_two_bounds (a := H - DEFAULT_SQUARE_SIZE)
      (by unfold DEFAULT_SQUARE_SIZE; omega)
    simp only [initialCrop, DEFAULT_SQUARE_SIZE] at *
    split_ifs <;> omega
  · intro W H e s hse hsq
    cases e with
    | keyL shift ctrl =>
        cases shift with
        | true => exact absurd rfl hse
        | false =>
            simp only [applyEvent, keyLeft]
            split_ifs <;> simp_all
    | keyR shift ctrl =>
        cases shift with
        | true => exact absurd rfl hse
        | false =>
            simp only [applyEvent, keyRight]
            split_ifs <;> simp_all
    | keyU shift ctrl =>
        cases shift with
        | true => exact absurd rfl hse
        | false =>
            simp only [applyEvent, keyUp]
            split_ifs <;> simp_all
    | keyD shift ctrl =>
        cases shift with
        | true => exact absurd rfl hse
        | false =>
            simp only [applyEvent, keyDown]
            split_ifs <;> simp_all
    | grow =>
        simp only [applyEvent, growKey]
        split_ifs <;> simp_all
    | shrink =>
        simp only [applyEvent, shrinkKey]
        split_ifs <;> simp_all
    | save => exact hsq
    | down ix iy => exact hsq
    | up => exact hsq
    | motion ix iy => exact square_mouseMotion W H ix iy s.crop s.st hsq

/-- C2 witness: the initial region of an 800×600 image is square, and the
grow key (not a Shift+Arrow resize) keeps it square. -/
theorem square_preserved_except_shift_resize_witness :
    (initialCrop 800 600).w = (initialCrop 800 600).h ∧
    (applyEvent 800 600 Ev.grow (initState 800 600)).crop.w =
      (applyEvent 800 600 Ev.grow (initState 800 600)).crop.h :=
  ⟨square_preserved_except_shift_resize.1 800 600 (by decide) (by decide),
   square_preserved_except_shift_resize.2 800 600 Ev.grow (initState 800 600)
     (by decide) (by decide)⟩

/-- C3 counterexample: in a 47×47 image the initial region is
`(0,0,47,47)`, whose width 47 is at least `MIN_SQUARE_SIZE = 32`; one
press of the shrink key yields `(0,0,31,31)`, whose width is below
`MIN_SQUARE_SIZE`, so the minimum-size invariant does not hold and the
shrink key does not floor the dimensions at `MIN_SQUARE_SIZE`. -/
theorem min_size_not_invariant_cex :
    (applyEvents 47 47 [Ev.shrink] (initState 47 47)).crop = ⟨0, 0, 31, 31⟩ ∧
    (applyEvents 47 47 [Ev.shrink] (initState 47 47)).crop.w < MIN_SQUARE_SIZE ∧
    MIN_SQUARE_SIZE ≤ (initState 47 47).crop.w := by decide

/-- C3 amended: the shrink-by-16 key is a no-op unless both dimensions
strictly exceed `MIN_SQUARE_SIZE = 32`; when it fires it subtracts exactly
16 from each dimension, so the result can be as low as
`MIN_SQUARE_SIZE - 15 = 17` but no lower: the key preserves
`w ≥ MIN_SQUARE_SIZE - 15`, not `w ≥ MIN_SQUARE_SIZE`. -/
theorem shrink_key_floor (c : CropRegion) :
    (c.w ≤ MIN_SQUARE_SIZE ∨ c.h ≤ MIN_SQUARE_SIZE → shrinkKey c = (c, false)) ∧
    (MIN_SQUARE_SIZE < c.w → MIN_SQUARE_SIZE < c.h →
      (shrinkKey c).1.w = c.w - 16 ∧ (shrinkKey c).1.h = c.h - 16 ∧
      MIN_SQUARE_SIZE - 15 ≤ (shrinkKey c).1.w ∧
      MIN_SQUARE_SIZE - 15 ≤ (shrinkKey c).1.h) ∧
    (MIN_SQUARE_SIZE - 15 ≤ c.w → MIN_SQUARE_SIZE - 15 ≤ (shrinkKey c).1.w) ∧
    (MIN_SQUARE_SIZE - 15 ≤ c.h → MIN_SQUARE_SIZE - 15 ≤ (shrinkKey c).1.h) := by
  obtain ⟨cx, cy, cw, ch⟩ := c
  simp only [shrinkKey, MIN_SQUARE_SIZE]
  split_ifs <;> (simp_all; try omega)

/-- C3 witness: shrinking from side 33 lands at 17, and the key is a
no-op when the width is exactly 32. -/
theorem shrink_key_floor_witness :
    (shrinkKey ⟨0, 0, 33, 33⟩).1.w = 33 - 16 ∧
    shrinkKey ⟨0, 0, 32, 40⟩ = (⟨0, 0, 32, 40⟩, false) :=
  ⟨((shrink_key_floor ⟨0, 0, 33, 33⟩).2.1 (by decide) (by decide)).1,
   (shrink_key_floor ⟨0, 0, 32, 40⟩).1 (Or.inl (by decide))⟩

/-- C4: one press of the grow key on region `(272,172,256,256)` yields
`(272,172,272,272)`: both dimensions grow by 16, but `x`/`y` are not
recomputed (the recentering assignments are commented out in the source),
so the result is not the `(264,164,272,272)` a centered resize gives, and
the center moves from `272 + 256/2 = 400` to `272 + 272/2 = 408`. -/
theorem grow_key_not_centered :
    growKey ⟨272, 172, 256, 256⟩ = (⟨272, 172, 272, 272⟩, true) ∧
    (growKey ⟨272, 172, 256, 256⟩).1 ≠ ⟨264, 164, 272, 272⟩ ∧
    (growKey ⟨272, 172, 256, 256⟩).1.x + cdiv (growKey ⟨272, 172, 256, 256⟩).1.w 2 ≠
      272 + cdiv 256 2 := by decide

/-- C5: for a region inside the image, Ctrl+Arrow moves the region by its
current width/height exactly when the destination region stays fully
inside the image, and otherwise leaves it unchanged; in an 800-wide image,
from `(272,172,256,256)` a Ctrl+Right jump sets `x` to 528 and a second
Ctrl+Right leaves the region unchanged. -/
theorem ctrl_jump_guard (W H : Int) (c : CropRegion) (hg : GoodRegion W H c) :
    ((keyRight false true W c).1 =
      if Inb W H { c with x := c.x + c.w } then { c with x := c.x + c.w } else c) ∧
    ((keyLeft false true c).1 =
      if Inb W H { c with x := c.x - c.w } then { c with x := c.x - c.w } else c) ∧
    ((keyDown false true H c).1 =
      if Inb W H { c with y := c.y + c.h } then { c with y := c.y + c.h } else c) ∧
    ((keyUp false true c).1 =
      if Inb W H { c with y := c.y - c.h } then { c with y := c.y - c.h } else c) ∧
    (keyRight false true 800 ⟨272, 172, 256, 256⟩).1 = ⟨528, 172, 256, 256⟩ ∧
    (keyRight false true 800 ⟨528, 172, 256, 256⟩).1 = ⟨528, 172, 256, 256⟩ := by
  obtain ⟨cx, cy, cw, ch⟩ := c
  simp only [GoodRegion, Inb] at hg
  refine ⟨?_, ?_, ?_, ?_, by decide, by decide⟩ <;>
    · simp only [keyRight, keyLeft, keyUp, keyDown, Inb]
      split_ifs <;> first | rfl | ((exfalso; simp only [Inb] at *) <;> omega)

/-- C5 witness: the Scenario C jump right from the initial 800×600
region. -/
theorem ctrl_jump_guard_witness :
    (keyRight false true 800 ⟨272, 172, 256, 256⟩).1 = ⟨528, 172, 256, 256⟩ :=
  (ctrl_jump_guard 800 600 ⟨272, 172, 256, 256⟩ (by decide)).2.2.2.2.1

/-- C6: a motion event in the resizing state keeps the top-left fixed and
sets `w = h` to the minimum of the two candidate dimensions derived from
the motion point plus the anchor offset, each clamped below by
`MIN_SQUARE_SIZE` and above so the bottom-right corner stays inside the
image; with top-left `(272,172)` and motion point `(600,500)` the result
is `w = h = 328`. -/
theorem resize_motion_square (W H ix iy : Int) (c : CropRegion) (st : Drag)
    (hd : st.dragging = false) (hr : st.resizing = true) :
    (mouseMotion W H ix iy c st).2 = true ∧
    (mouseMotion W H ix iy c st).1.x = c.x ∧
    (mouseMotion W H ix iy c st).1.y = c.y ∧
    (mouseMotion W H ix iy c st).1.w = (mouseMotion W H ix iy c st).1.h ∧
    (mouseMotion W H ix iy c st).1.w =
      min (min (max (trunc_half (ix + st.offx) - c.x) MIN_SQUARE_SIZE) (W - c.x))
          (min (max (trunc_half (iy + st.offy) - c.y) MIN_SQUARE_SIZE) (H - c.y)) ∧
    (mouseMotion 800 600 600 500 ⟨272, 172, 256, 256⟩ ⟨false, true, 0, 0⟩).1 =
      ⟨272, 172, 328, 328⟩ := by
  obtain ⟨cx, cy, cw, ch⟩ := c
  simp only [mouseMotion, hd, hr]
  refine ⟨rfl, rfl, rfl, rfl, rfl, by decide⟩

/-- C6 witness: the Scenario D resize on the initial 800×600 region with a
zero anchor offset. -/
theorem resize_motion_square_witness :
    (mouseMotion 800 600 600 500 ⟨272, 172, 256, 256⟩ ⟨false, true, 0, 0⟩).1 =
      ⟨272, 172, 328, 328⟩ :=
  (resize_motion_square 800 600 600 500 ⟨272, 172, 256, 256⟩
    ⟨false, true, 0, 0⟩ rfl rfl).2.2.2.2.2

/-- C7: a primary-button press in the idle state enters the resizing state
with anchor bottom-right-minus-click when the image-space click point lies
in the region (boundary inclusive) with both componentwise distances to
the bottom-right corner below 24; enters the dragging state with anchor
click-minus-top-left when it lies in the region outside that corner zone;
and changes nothing when it lies outside the region. -/
theorem mouse_down_hit (ix iy : Int) (c : CropRegion) (st : Drag)
    (hd : st.dragging = false) (hr : st.resizing = false) :
    (c.x ≤ ix ∧ ix ≤ c.x + c.w ∧ c.y ≤ iy ∧ iy ≤ c.y + c.h →
      (((ix - (c.x + c.w)).natAbs < 24 ∧ (iy - (c.y + c.h)).natAbs < 24 →
        mouseDown ix iy c st = ⟨false, true, c.x + c.w - ix, c.y + c.h - iy⟩) ∧
       (¬ ((ix - (c.x + c.w)).natAbs < 24 ∧ (iy - (c.y + c.h)).natAbs < 24) →
        mouseDown ix iy c st = ⟨true, false, ix - c.x, iy - c.y⟩))) ∧
    (¬ (c.x ≤ ix ∧ ix ≤ c.x + c.w ∧ c.y ≤ iy ∧ iy ≤ c.y + c.h) →
      mouseDown ix iy c st = st) := by
  obtain ⟨d, r, ox, oy⟩ := st
  simp only at hd hr
  subst hd hr
  simp only [mouseDown]
  split_ifs with h1 h2 <;> simp_all

/-- C7 witness: a click at `(520,420)` on region `(272,172,256,256)` is
inside the corner zone (distance 8 to the bottom-right corner `(528,428)`)
and enters the resizing state with anchor `(8,8)`. -/
theorem mouse_down_hit_witness :
    mouseDown 520 420 ⟨272, 172, 256, 256⟩ ⟨false, false, 0, 0⟩ =
      ⟨false, true, 8, 8⟩ :=
  ((mouse_down_hit 520 420 ⟨272, 172, 256, 256⟩ ⟨false, false, 0, 0⟩ rfl rfl).1
    (by decide)).1 (by decide)

/-- C8: a save request names the file from the zero-padded counter and the
region's dimensions, increments the counter whether or not pixels are
written, writes nothing when a dimension is nonpositive, and otherwise
extracts exactly the region's `w×h` rectangle of source pixels; starting
from the process-lifetime counter 1, the first save on `(272,172,256,256)`
is `crop_001_256x256.png` and the second is `crop_002_256x256.png`. -/
theorem save_request_behavior (W H : Int) (src : Int → Int → Int)
    (c : CropRegion) (cnt : Nat) :
    (saveKey W H src c cnt).1 = cnt + 1 ∧
    (saveKey W H src c cnt).2.1 = saveFileName cnt c ∧
    (c.w ≤ 0 ∨ c.h ≤ 0 → (saveKey W H src c cnt).2.2 = none) ∧
    (0 < c.w → 0 < c.h →
      (saveKey W H src c cnt).2.2 = some (extractRect W H src c)) ∧
    (GoodRegion W H c → ∀ i j : Int, 0 ≤ i → i < c.w → 0 ≤ j → j < c.h →
      extractRect W H src c i j = src (c.x + i) (c.y + j)) ∧
    saveFileName 1 ⟨272, 172, 256, 256⟩ = "crop_001_256x256.png" ∧
    saveFileName 2 ⟨272, 172, 256, 256⟩ = "crop_002_256x256.png" ∧
    (initState W H).cnt = 1 ∧
    (applyEvent W H Ev.save (initState W H)).cnt = 2 ∧
    (applyEvent W H Ev.save (initState W H)).crop = (initState W H).crop := by
  refine ⟨rfl, rfl, ?_, ?_, ?_, by decide, by decide, rfl, rfl, rfl⟩
  · intro h
    simp only [saveKey, save_crop]
    rw [if_pos h]
  · intro hw hh
    simp only [saveKey, save_crop]
    rw [if_neg (by omega)]
  · intro hg i j hi hiw hj hjh
    obtain ⟨⟨hx, hy, hxw, hyh⟩, _, _⟩ := hg
    simp only [extractRect]
    rw [if_pos (by omega)]

/-- C8 witness: with the counter at 1 and the Scenario A region, the save
produces the extracted rectangle, the name `crop_001_256x256.png` and the
counter 2. -/
theorem save_request_behavior_witness :
    (saveKey 800 600 (fun _ _ => (0 : Int)) ⟨272, 172, 256, 256⟩ 1).2.2 =
      some (extractRect 800 600 (fun _ _ => (0 : Int)) ⟨272, 172, 256, 256⟩) ∧
    (saveKey 800 600 (fun _ _ => (0 : Int)) ⟨272, 172, 256, 256⟩ 1).2.1 =
      "crop_001_256x256.png" ∧
    (saveKey 800 600 (fun _ _ => (0 : Int)) ⟨272, 172, 256, 256⟩ 1).1 = 2 := by
  have h := save_request_behavior 800 600 (fun _ _ => (0 : Int)) ⟨272, 172, 256, 256⟩ 1
  exact ⟨h.2.2.2.1 (by decide) (by decide), h.2.1.trans h.2.2.2.2.2.1, h.1⟩

/-- C9: a Shift+Arrow press resizes exactly one dimension by one pixel
without recomputing `x` or `y`, leaving the other three fields unchanged:
Shift+Right grows `w` by one exactly when `x + w < width` (for a region
with `x ≥ 0`), never past the image extent; Shift+Left shrinks `w` by one
exactly when `w` exceeds `MIN_SQUARE_SIZE`, never below it; Shift+Down and
Shift+Up act likewise on `h` against the image height. -/
theorem shift_resize_one_dim (ctrl : Bool) (W H : Int) (c : CropRegion)
    (hx : 0 ≤ c.x) (hy : 0 ≤ c.y) :
    ((keyRight true ctrl W c).1.x = c.x ∧ (keyRight true ctrl W c).1.y = c.y ∧
     (keyRight true ctrl W c).1.h = c.h ∧
     (keyRight true ctrl W c).1.w = (if c.x + c.w < W then c.w + 1 else c.w) ∧
     (c.x + c.w ≤ W → c.x + (keyRight true ctrl W c).1.w ≤ W)) ∧
    ((keyLeft true ctrl c).1.x = c.x ∧ (keyLeft true ctrl c).1.y = c.y ∧
     (keyLeft true ctrl c).1.h = c.h ∧
     (keyLeft true ctrl c).1.w =
       (if MIN_SQUARE_SIZE < c.w then c.w - 1 else c.w) ∧
     (MIN_SQUARE_SIZE ≤ c.w → MIN_SQUARE_SIZE ≤ (keyLeft true ctrl c).1.w)) ∧
    ((keyDown true ctrl H c).1.x = c.x ∧ (keyDown true ctrl H c).1.y = c.y ∧
     (keyDown true ctrl H c).1.w = c.w ∧
     (keyDown true ctrl H c).1.h = (if c.y + c.h < H then c.h + 1 else c.h) ∧
     (c.y + c.h ≤ H → c.y + (keyDown true ctrl H c).1.h ≤ H)) ∧
    ((keyUp true ctrl c).1.x = c.x ∧ (keyUp true ctrl c).1.y = c.y ∧
     (keyUp true ctrl c).1.w = c.w ∧
     (keyUp true ctrl c).1.h =
       (if MIN_SQUARE_SIZE < c.h then c.h - 1 else c.h) ∧
     (MIN_SQUARE_SIZE ≤ c.h → MIN_SQUARE_SIZE ≤ (keyUp true ctrl c).1.h)) := by
  obtain ⟨cx, cy, cw, ch⟩ := c
  simp only [keyRight, keyLeft, keyUp, keyDown, MIN_SQUARE_SIZE] at *
  refine ⟨⟨?_, ?_, ?_, ?_, ?_⟩, ⟨?_, ?_, ?_, ?_, ?_⟩,
    ⟨?_, ?_, ?_, ?_, ?_⟩, ⟨?_, ?_, ?_, ?_, ?_⟩⟩ <;>
    split_ifs <;> first | rfl | omega | (simp_all <;> omega)

/-- C9 witness: Shift+Right on the Scenario A region grows only the width,
to 257. -/
theorem shift_resize_one_dim_witness :
    (keyRight true false 800 ⟨272, 172, 256, 256⟩).1.w = 257 ∧
    (keyRight true false 800 ⟨272, 172, 256, 256⟩).1.h = 256 := by
  have h := (shift_resize_one_dim false 800 600 ⟨272, 172, 256, 256⟩
    (by decide) (by decide)).1
  refine ⟨?_, h.2.2.1⟩
  rw [h.2.2.2.1]
  decide

/-- C10 counterexample: with a cached preview produced from region
`(0,0,256,256)` (generation id 7, next fresh id 8) and the same region
current, one frame whose event queue holds a dragging motion that lands on
the identical position leaves the region equal to the cached one, yet the
`crop_changed` flag forces the preview to be rebuilt: the allocation
counter advances to 9 and the held entry is a new allocation (id 8), so an
unchanged region does not guarantee the cached preview is reused. -/
theorem preview_cache_cex :
    (frameStep 800 600 (fun _ _ => (0 : Int))
        ⟨⟨0, 0, 256, 256⟩, ⟨true, false, 0, 0⟩, 1, false⟩
        [Ev.motion 0 0] (some ⟨⟨0, 0, 256, 256⟩, 7, fun _ _ => (0 : Int)⟩)
        8).1.crop = ⟨0, 0, 256, 256⟩ ∧
    (frameStep 800 600 (fun _ _ => (0 : Int))
        ⟨⟨0, 0, 256, 256⟩, ⟨true, false, 0, 0⟩, 1, false⟩
        [Ev.motion 0 0] (some ⟨⟨0, 0, 256, 256⟩, 7, fun _ _ => (0 : Int)⟩)
        8).2.2 = 9 ∧
    ((frameStep 800 600 (fun _ _ => (0 : Int))
        ⟨⟨0, 0, 256, 256⟩, ⟨true, false, 0, 0⟩, 1, false⟩
        [Ev.motion 0 0] (some ⟨⟨0, 0, 256, 256⟩, 7, fun _ _ => (0 : Int)⟩)
        8).2.1.map PrevEntry.id) = some 8 ∧
    ((frameStep 800 600 (fun _ _ => (0 : Int))
        ⟨⟨0, 0, 256, 256⟩, ⟨true, false, 0, 0⟩, 1, false⟩
        [Ev.motion 0 0] (some ⟨⟨0, 0, 256, 256⟩, 7, fun _ _ => (0 : Int)⟩)
        8).2.1.map PrevEntry.reg) = some ⟨0, 0, 256, 256⟩ := by
  refine ⟨rfl, rfl, rfl, rfl⟩

/-- C10 amended: the preview step is keyed on the per-frame `crop_changed`
flag, not on comparing the region against the cached snapshot: it returns
the held entry unchanged with no new allocation exactly when the flag is
unset and an entry is held; when the flag is set or no entry is held, the
old entry is discarded and, for a region with positive dimensions, a fresh
buffer holding exactly the region's pixels is produced and cached (for a
degenerate region nothing is cached).  Mutation events can set the flag
while leaving the region unchanged, so an unchanged region may still be
recomputed. -/
theorem preview_flag_policy (W H : Int) (src : Int → Int → Int)
    (changed : Bool) (c : CropRegion) (cache : Option PrevEntry) (nid : Nat) :
    (changed = false → cache ≠ none →
      previewUpdate W H src changed c cache nid = (cache, nid)) ∧
    ((changed = true ∨ cache = none) → 0 < c.w → 0 < c.h →
      previewUpdate W H src changed c cache nid =
        (some ⟨c, nid, extractRect W H src c⟩, nid + 1)) ∧
    ((changed = true ∨ cache = none) → (c.w ≤ 0 ∨ c.h ≤ 0) →
      previewUpdate W H src changed c cache nid = (none, nid)) := by
  refine ⟨?_, ?_, ?_⟩
  · intro hch hc
    cases cache with
    | none => exact absurd rfl hc
    | some e =>
        subst hch
        simp only [previewUpdate, Option.isNone, Bool.or_false]
        rfl
  · intro hor hw hh
    have hcond : (changed || cache.isNone) = true := by
      rcases hor with h | h
      · simp [h]
      · simp [h]
    simp only [previewUpdate, hcond, if_true]
    rw [if_pos ⟨hw, hh⟩]
  · intro hor hdeg
    have hcond : (changed || cache.isNone) = true := by
      rcases hor with h | h
      · simp [h]
      · simp [h]
    simp only [previewUpdate, hcond, if_true]
    rw [if_neg (by omega)]

/-- C10 witness: with the flag unset and a held entry, the preview step
returns the entry and allocates nothing. -/
theorem preview_flag_policy_witness :
    previewUpdate 800 600 (fun _ _ => (0 : Int)) false ⟨0, 0, 256, 256⟩
        (some ⟨⟨0, 0, 256, 256⟩, 7, fun _ _ => (0 : Int)⟩) 8 =
      (some ⟨⟨0, 0, 256, 256⟩, 7, fun _ _ => (0 : Int)⟩, 8) :=
  (preview_flag_policy 800 600 (fun _ _ => (0 : Int)) false ⟨0, 0, 256, 256⟩
    (some ⟨⟨0, 0, 256, 256⟩, 7, fun _ _ => (0 : Int)⟩) 8).1 rfl
    (Option.some_ne_none _)
